import Mathlib

/-!
Shallow embedding of `src/sync_engine.py` (S002 → Azure PostgreSQL
synchronization engine).

The two sync classes `FXTradeSync` and `FXOptionTradeSync` are structurally
identical: they differ only in table names and in the column lists of the
fetched/inserted rows.  We therefore embed the algorithm once, abstracting a
row to its primary key `tradeId` plus an opaque payload `fields` standing for
the remaining columns.  Every theorem about the embedded functions applies to
both classes.
-/

/-- A row of the source/target table: the primary key `TradeId` together with
the remaining column values, abstracted to a list of integers (their content
is never inspected by the sync algorithm). -/
structure Record where
  tradeId : Int
  fields : List Int
deriving DecidableEq, Repr

/-- The list of primary keys of a list of rows. -/
def ids (l : List Record) : List Int := l.map Record.tradeId

/-- Embeds `FXTradeSync.get_source_ids` (and `FXOptionTradeSync.get_source_ids`,
sync_engine.py lines 98-102 / 213-217): `SELECT TradeId FROM <source>` collected
into a Python `set`. -/
def get_source_ids (source : List Record) : Finset Int := (ids source).toFinset

/-- Embeds `FXTradeSync.get_target_ids` (and `FXOptionTradeSync.get_target_ids`,
sync_engine.py lines 104-108 / 219-223): `SELECT trade_id FROM <target>`
collected into a Python `set`. -/
def get_target_ids (target : List Record) : Finset Int := (ids target).toFinset

/-- Insertion sort step used to model the SQL `ORDER BY TradeId` clause. -/
def insertSorted (r : Record) : List Record → List Record
  | [] => [r]
  | x :: xs => if r.tradeId ≤ x.tradeId then r :: x :: xs else x :: insertSorted r xs

/-- Sort rows by ascending primary key: the semantics of `ORDER BY TradeId`. -/
def sortByTradeId : List Record → List Record
  | [] => []
  | x :: xs => insertSorted x (sortByTradeId xs)

/-- Embeds `FXTradeSync.fetch_missing_records` (and the structurally identical
`FXOptionTradeSync.fetch_missing_records`, sync_engine.py lines 110-130 /
225-247): if `missing_ids` is empty return `[]`; otherwise run
`SELECT <columns> FROM <source> WHERE TradeId IN (<placeholders>) ORDER BY TradeId`,
i.e. the source rows whose key lies in `missing_ids`, sorted by key. -/
def fetch_missing_records (source : List Record) (missing_ids : Finset Int) :
    List Record :=
  if missing_ids = ∅ then []
  else sortByTradeId (source.filter (fun r => r.tradeId ∈ missing_ids))

/-- Observation of the same code path (sync_engine.py lines 113-129 / 228-246):
the per-query parameter counts of the queries submitted to the source backend
by `fetch_missing_records`.  The code builds one single query whose placeholder
list is `','.join('?' * len(missing_ids))` and executes it once with
`tuple(missing_ids)` as the parameters, so a nonempty `missing_ids` yields
exactly one query carrying `len(missing_ids)` parameters. -/
def fetchQueryParamCounts (missing_ids : Finset Int) : List Nat :=
  if missing_ids = ∅ then [] else [missing_ids.card]

/-- Effect of executing the parameterized
`INSERT INTO <target> (...) VALUES (...) ON CONFLICT (trade_id) DO NOTHING`
statement (sync_engine.py lines 138-151 / 255-271) for one row against a
target table state: a row whose primary key is already present is skipped
(no error, no duplicate); otherwise the row is appended. -/
def insertOne (target : List Record) (r : Record) : List Record :=
  if r.tradeId ∈ ids target then target else target ++ [r]

/-- Pages of size `b` in order, as produced by `psycopg2.extras.execute_batch`
with `page_size = b` (each page holds the next `b` rows; the last page may be
shorter).  Only `0 < b` is meaningful: the real pagination does not terminate
for `page_size = 0`. -/
def chunksOf (b : Nat) : List Record → List (List Record)
  | [] => []
  | x :: xs => (x :: xs.take (b - 1)) :: chunksOf b (xs.drop (b - 1))
termination_by l => l.length
decreasing_by simp only [List.length_drop, List.length_cons]; omega

/-- Embeds the `execute_batch(cursor, insert_query, records, page_size=...)`
call (sync_engine.py line 153 / 273): the rows are executed page by page, in
order, each with the conflict-skipping insert statement. -/
def executeBatch (b : Nat) (target records : List Record) : List Record :=
  (chunksOf b records).foldl (fun t page => page.foldl insertOne t) target

/-- Embeds `FXTradeSync.insert_records` (and the structurally identical
`FXOptionTradeSync.insert_records`, sync_engine.py lines 132-154 / 249-274):
returns the target table state after the batched conflict-skipping insert,
paired with the value the function returns — `0` for an empty record list and
`len(records)` otherwise. -/
def insert_records (b : Nat) (target records : List Record) :
    List Record × Nat :=
  if records = [] then (target, 0)
  else (executeBatch b target records, records.length)

/-- Modelled from the spec: the "one large insert" the batched insert is
compared against (spec §4.2 step 4: batch boundaries have no semantic effect —
the operation is equivalent to one large insert).  All rows are applied in
order with the conflict-skipping insert, with no paging. -/
def insertAll (target records : List Record) : List Record :=
  records.foldl insertOne target

/-- Observable outcome of one entity type's `sync()` run (sync_engine.py lines
156-204 / 276-324) on given source and target table states: the resolved id
sets, the missing set, whether fetch/insert ran (`none` = skipped), the target
state after commit, the verification recount, and the returned flag. -/
structure SyncReport where
  sourceIds : Finset Int
  targetIdsBefore : Finset Int
  missing : Finset Int
  fetched : Option (List Record)
  insertedCount : Option Nat
  targetAfter : List Record
  finalCount : Nat
  converged : Bool
deriving DecidableEq

/-- Embeds the body of `FXTradeSync.sync` (and the structurally identical
`FXOptionTradeSync.sync`, sync_engine.py lines 169-198 / 289-318) on the happy
path (no query/connection error): resolve both id sets, compute
`missing_ids = source_ids - target_ids`, fetch and insert only `if missing_ids:`
is truthy (nonempty), commit, recount the target, and return
`final_count == len(source_ids)`. -/
def syncRun (b : Nat) (source target : List Record) : SyncReport :=
  let source_ids := get_source_ids source
  let target_ids := get_target_ids target
  let missing_ids := source_ids \ target_ids
  let step :=
    if missing_ids.Nonempty then
      let records := fetch_missing_records source missing_ids
      let inserted := insert_records b target records
      (some records, some inserted.2, inserted.1)
    else (none, none, target)
  let final_count := step.2.2.length
  { sourceIds := source_ids
    targetIdsBefore := target_ids
    missing := missing_ids
    fetched := step.1
    insertedCount := step.2.1
    targetAfter := step.2.2
    finalCount := final_count
    converged := decide (final_count = source_ids.card) }

/-- Outcome of one entity type's `sync()` call as seen by `main`: either a
returned boolean (`True` = exact match, `False` = mismatch) or a raised
exception (unrecoverable query/connection error, which `sync` itself never
catches). -/
inductive SyncOutcome where
  | ok : Bool → SyncOutcome
  | raises : SyncOutcome
deriving DecidableEq, Repr

/-- What a run of `main` did: the process exit code, and whether each of the
two entity-type syncs was actually invoked. -/
structure MainResult where
  exitCode : Nat
  fxAttempted : Bool
  fxOptionAttempted : Bool
deriving DecidableEq, Repr

/-- Embeds `main` (sync_engine.py lines 327-364): `success = True`; inside a
single `try`, run `FXTradeSync.sync()` (clearing `success` on `False`) then
`FXOptionTradeSync.sync()` (likewise); the `except` around BOTH calls logs and
calls `sys.exit(1)`; after the `try`, `sys.exit(1)` if `success` is false,
otherwise the process ends with exit code 0. -/
def mainRun (fx fxOption : SyncOutcome) : MainResult :=
  match fx with
  | .raises => { exitCode := 1, fxAttempted := true, fxOptionAttempted := false }
  | .ok c1 =>
    match fxOption with
    | .raises => { exitCode := 1, fxAttempted := true, fxOptionAttempted := true }
    | .ok c2 =>
      { exitCode := if c1 && c2 then 0 else 1
        fxAttempted := true
        fxOptionAttempted := true }

/-- Connection-lifecycle trace of one entity type's `sync()`: which of the two
connections were opened and which were closed, and whether the call raised. -/
structure ConnTrace where
  sqlOpened : Bool
  pgOpened : Bool
  sqlClosed : Bool
  pgClosed : Bool
  raised : Bool
deriving DecidableEq, Repr

/-- Embeds the resource flow of `FXTradeSync.sync` / `FXOptionTradeSync.sync`
(sync_engine.py lines 163-204 / 283-324): the SQL Server connection is opened
first, then the PostgreSQL connection, both BEFORE the `try:` block; the
`finally:` clause (which closes all four cursor/connection handles) guards only
the body.  Parameters say which step raises: opening the SQL connection,
opening the PG connection, or the body. -/
def syncConnections (sqlConnectFails pgConnectFails bodyFails : Bool) :
    ConnTrace :=
  if sqlConnectFails then
    { sqlOpened := false, pgOpened := false, sqlClosed := false
      pgClosed := false, raised := true }
  else if pgConnectFails then
    { sqlOpened := true, pgOpened := false, sqlClosed := false
      pgClosed := false, raised := true }
  else
    { sqlOpened := true, pgOpened := true, sqlClosed := true
      pgClosed := true, raised := bodyFails }

/-- Helper row constructor for concrete instances: key `i`, empty payload. -/
def mkRecord (i : Int) : Record := { tradeId := i, fields := [] }

/-! ### Lemmas about the conflict-skipping insert -/

theorem ids_cons (r : Record) (rs : List Record) :
    ids (r :: rs) = r.tradeId :: ids rs := rfl

theorem ids_append (t : List Record) (r : Record) :
    ids (t ++ [r]) = ids t ++ [r.tradeId] := by
  simp [ids]

theorem length_ids (l : List Record) : (ids l).length = l.length :=
  List.length_map l Record.tradeId

theorem insertOne_of_mem {t : List Record} {r : Record} (h : r.tradeId ∈ ids t) :
    insertOne t r = t := by
  simp [insertOne, h]

theorem insertOne_of_not_mem {t : List Record} {r : Record}
    (h : r.tradeId ∉ ids t) : insertOne t r = t ++ [r] := by
  simp [insertOne, h]

theorem insertAll_nil (t : List Record) : insertAll t [] = t := rfl

theorem insertAll_cons (t : List Record) (r : Record) (rs : List Record) :
    insertAll t (r :: rs) = insertAll (insertOne t r) rs := rfl

theorem count_ids_insertAll {k : Int} (rs : List Record) :
    ∀ t : List Record, k ∈ ids t →
      (ids (insertAll t rs)).count k = (ids t).count k := by
  induction rs with
  | nil => intro t _; rfl
  | cons r rs ih =>
    intro t hk
    rw [insertAll_cons]
    by_cases hr : r.tradeId ∈ ids t
    · rw [insertOne_of_mem hr]
      exact ih t hk
    · rw [insertOne_of_not_mem hr]
      have hne : k ≠ r.tradeId := fun he => hr (he ▸ hk)
      rw [ih (t ++ [r]) (by rw [ids_append]; exact List.mem_append_left _ hk),
        ids_append, List.count_append]
      simp [List.count_singleton, hne]

theorem nodup_ids_insertOne {t : List Record} (r : Record)
    (h : (ids t).Nodup) : (ids (insertOne t r)).Nodup := by
  by_cases hr : r.tradeId ∈ ids t
  · rw [insertOne_of_mem hr]; exact h
  · rw [insertOne_of_not_mem hr, ids_append]
    refine h.append (List.nodup_singleton _) ?_
    intro a ha hb
    simp only [List.mem_singleton] at hb
    exact hr (hb ▸ ha)

theorem nodup_ids_insertAll (rs : List Record) :
    ∀ t : List Record, (ids t).Nodup → (ids (insertAll t rs)).Nodup := by
  induction rs with
  | nil => exact fun t h => h
  | cons r rs ih =>
    intro t h
    rw [insertAll_cons]
    exact ih _ (nodup_ids_insertOne r h)

theorem toFinset_ids_insertOne (t : List Record) (r : Record) :
    (ids (insertOne t r)).toFinset = (ids t).toFinset ∪ {r.tradeId} := by
  by_cases hr : r.tradeId ∈ ids t
  · rw [insertOne_of_mem hr]
    exact (Finset.union_eq_left.mpr
      (Finset.singleton_subset_iff.mpr (List.mem_toFinset.mpr hr))).symm
  · rw [insertOne_of_not_mem hr, ids_append, List.toFinset_append]
    simp

theorem toFinset_ids_insertAll (rs : List Record) :
    ∀ t : List Record,
      (ids (insertAll t rs)).toFinset = (ids t).toFinset ∪ (ids rs).toFinset := by
  induction rs with
  | nil => intro t; simp [insertAll_nil, ids]
  | cons r rs ih =>
    intro t
    rw [insertAll_cons, ih, toFinset_ids_insertOne, ids_cons]
    ext x
    simp
    tauto

theorem insertAll_of_all_mem (rs : List Record) :
    ∀ t : List Record, (∀ r ∈ rs, r.tradeId ∈ ids t) → insertAll t rs = t := by
  induction rs with
  | nil => intro t _; rfl
  | cons r rs ih =>
    intro t h
    rw [insertAll_cons, insertOne_of_mem (h r (List.mem_cons_self r rs))]
    exact ih t fun r' hr' => h r' (List.mem_cons_of_mem _ hr')

theorem insertAll_of_all_fresh (rs : List Record) :
    ∀ t : List Record, (ids rs).Nodup → (∀ r ∈ rs, r.tradeId ∉ ids t) →
      insertAll t rs = t ++ rs := by
  induction rs with
  | nil => intro t _ _; simp [insertAll_nil]
  | cons r rs ih =>
    intro t hnd h
    rw [insertAll_cons, insertOne_of_not_mem (h r (List.mem_cons_self r rs))]
    rw [ids_cons, List.nodup_cons] at hnd
    have h' : ∀ r' ∈ rs, r'.tradeId ∉ ids (t ++ [r]) := by
      intro r' hr' hmem
      rw [ids_append] at hmem
      rcases List.mem_append.mp hmem with hmt | hms
      · exact h r' (List.mem_cons_of_mem _ hr') hmt
      · rw [List.mem_singleton] at hms
        exact hnd.1 (hms ▸ List.mem_map_of_mem Record.tradeId hr')
    rw [ih (t ++ [r]) hnd.2 h', List.append_assoc, List.singleton_append]

/-! ### The batched insert is the fold of the single-row insert -/

theorem foldl_chunksOf (b : Nat) :
    ∀ (n : Nat) (l : List Record), l.length ≤ n → ∀ init : List Record,
      (chunksOf b l).foldl (fun t page => page.foldl insertOne t) init
        = l.foldl insertOne init := by
  intro n
  induction n with
  | zero =>
    intro l hl init
    rw [List.length_eq_zero.mp (Nat.le_zero.mp hl)]
    simp [chunksOf]
  | succ n ih =>
    intro l hl init
    match l with
    | [] => simp [chunksOf]
    | x :: xs =>
      rw [show chunksOf b (x :: xs)
            = (x :: xs.take (b - 1)) :: chunksOf b (xs.drop (b - 1)) from by
          simp [chunksOf]]
      rw [List.foldl_cons,
        ih (xs.drop (b - 1))
          (by simp only [List.length_drop]
              simp only [List.length_cons] at hl
              omega)]
      conv_rhs =>
        rw [show x :: xs = (x :: xs.take (b - 1)) ++ xs.drop (b - 1) from by
          rw [List.cons_append, List.take_append_drop]]
      rw [List.foldl_append]

theorem executeBatch_eq_insertAll (b : Nat) (target records : List Record) :
    executeBatch b target records = insertAll target records :=
  foldl_chunksOf b records.length records le_rfl target

theorem insert_records_fst (b : Nat) (target records : List Record) :
    (insert_records b target records).1 = insertAll target records := by
  by_cases h : records = []
  · subst h; simp [insert_records, insertAll_nil]
  · simp [insert_records, h, executeBatch_eq_insertAll]

theorem insert_records_snd (b : Nat) (target : List Record)
    {records : List Record} (h : records ≠ []) :
    (insert_records b target records).2 = records.length := by
  simp [insert_records, h]

/-! ### The fetch step -/

theorem insertSorted_perm (r : Record) :
    ∀ l : List Record, List.Perm (insertSorted r l) (r :: l) := by
  intro l
  induction l with
  | nil => exact List.Perm.refl _
  | cons x xs ih =>
    by_cases h : r.tradeId ≤ x.tradeId
    · simp [insertSorted, h]
    · simp only [insertSorted, if_neg h]
      exact (ih.cons x).trans (List.Perm.swap r x xs)

theorem sortByTradeId_perm :
    ∀ l : List Record, List.Perm (sortByTradeId l) l := by
  intro l
  induction l with
  | nil => exact List.Perm.refl _
  | cons x xs ih =>
    rw [sortByTradeId]
    exact (insertSorted_perm x (sortByTradeId xs)).trans (ih.cons x)

theorem fetch_missing_perm (source : List Record) (M : Finset Int)
    (h : M ≠ ∅) :
    List.Perm (fetch_missing_records source M)
      (source.filter (fun r => r.tradeId ∈ M)) := by
  simp only [fetch_missing_records, if_neg h]
  exact sortByTradeId_perm _

theorem fetch_missing_spec (source : List Record) (M : Finset Int)
    (hs : (ids source).Nodup) (hM : M ⊆ (ids source).toFinset) (hne : M ≠ ∅) :
    (∀ r ∈ fetch_missing_records source M, r.tradeId ∈ M) ∧
    (ids (fetch_missing_records source M)).Nodup ∧
    (ids (fetch_missing_records source M)).toFinset = M ∧
    (fetch_missing_records source M).length = M.card := by
  have hperm := fetch_missing_perm source M hne
  have hidsperm := hperm.map Record.tradeId
  have hndC : (ids (source.filter (fun r => r.tradeId ∈ M))).Nodup :=
    hs.sublist ((List.filter_sublist source).map Record.tradeId)
  have hndF : (ids (fetch_missing_records source M)).Nodup :=
    hidsperm.symm.nodup hndC
  have htoF : (ids (fetch_missing_records source M)).toFinset = M := by
    simp only [ids]
    rw [List.toFinset_eq_of_perm _ _ hidsperm]
    ext x
    simp only [List.mem_toFinset, ids, List.mem_map, List.mem_filter,
      decide_eq_true_eq]
    constructor
    · rintro ⟨r, ⟨_, hrM⟩, hrx⟩
      exact hrx ▸ hrM
    · intro hx
      have := hM hx
      rw [List.mem_toFinset, ids, List.mem_map] at this
      obtain ⟨r, hr, hrx⟩ := this
      exact ⟨r, ⟨hr, hrx ▸ hx⟩, hrx⟩
  refine ⟨?_, hndF, htoF, ?_⟩
  · intro r hr
    have : r.tradeId ∈ ids (fetch_missing_records source M) :=
      List.mem_map_of_mem Record.tradeId hr
    have : r.tradeId ∈ (ids (fetch_missing_records source M)).toFinset :=
      List.mem_toFinset.mpr this
    rw [htoF] at this
    exact this
  · rw [← length_ids, ← List.toFinset_card_of_nodup hndF, htoF]

/-! ### Unfolding the sync run -/

theorem syncRun_of_empty_missing (b : Nat) (source target : List Record)
    (h : get_source_ids source \ get_target_ids target = ∅) :
    syncRun b source target =
      { sourceIds := get_source_ids source
        targetIdsBefore := get_target_ids target
        missing := get_source_ids source \ get_target_ids target
        fetched := none
        insertedCount := none
        targetAfter := target
        finalCount := target.length
        converged := decide (target.length = (get_source_ids source).card) } := by
  have h' : ¬(get_source_ids source \ get_target_ids target).Nonempty := by
    rw [h]; exact Finset.not_nonempty_empty
  simp [syncRun, h']

theorem syncRun_of_nonempty_missing (b : Nat) (source target : List Record)
    (h : (get_source_ids source \ get_target_ids target).Nonempty) :
    syncRun b source target =
      { sourceIds := get_source_ids source
        targetIdsBefore := get_target_ids target
        missing := get_source_ids source \ get_target_ids target
        fetched := some (fetch_missing_records source
          (get_source_ids source \ get_target_ids target))
        insertedCount := some (insert_records b target
          (fetch_missing_records source
            (get_source_ids source \ get_target_ids target))).2
        targetAfter := (insert_records b target
          (fetch_missing_records source
            (get_source_ids source \ get_target_ids target))).1
        finalCount := (insert_records b target
          (fetch_missing_records source
            (get_source_ids source \ get_target_ids target))).1.length
        converged := decide ((insert_records b target
          (fetch_missing_records source
            (get_source_ids source \ get_target_ids target))).1.length
          = (get_source_ids source).card) } := by
  simp [syncRun, h]

theorem syncRun_finalCount_eq (b : Nat) (source target : List Record) :
    (syncRun b source target).finalCount
      = (syncRun b source target).targetAfter.length := rfl

theorem syncRun_converged_eq (b : Nat) (source target : List Record) :
    (syncRun b source target).converged
      = decide ((syncRun b source target).finalCount
          = (get_source_ids source).card) := rfl

theorem syncRun_missing_eq (b : Nat) (source target : List Record) :
    (syncRun b source target).missing
      = get_source_ids source \ get_target_ids target := rfl

theorem syncRun_spec (b : Nat) (source target : List Record)
    (hs : (ids source).Nodup) (ht : (ids target).Nodup)
    (hsub : get_target_ids target ⊆ get_source_ids source) :
    (ids (syncRun b source target).targetAfter).Nodup ∧
    (ids (syncRun b source target).targetAfter).toFinset
      = get_source_ids source ∧
    (syncRun b source target).finalCount = (get_source_ids source).card ∧
    (syncRun b source target).converged = true := by
  have htlen : target.length = (get_target_ids target).card := by
    rw [show get_target_ids target = (ids target).toFinset from rfl,
      List.toFinset_card_of_nodup ht, length_ids]
  by_cases hM : (get_source_ids source \ get_target_ids target).Nonempty
  · obtain ⟨hmem, hndF, htoF, hlenF⟩ :=
      fetch_missing_spec source (get_source_ids source \ get_target_ids target)
        hs Finset.sdiff_subset (Finset.nonempty_iff_ne_empty.mp hM)
    have hfresh : ∀ r ∈ fetch_missing_records source
        (get_source_ids source \ get_target_ids target),
        r.tradeId ∉ ids target := by
      intro r hr hrt
      exact (Finset.mem_sdiff.mp (hmem r hr)).2 (List.mem_toFinset.mpr hrt)
    have hta : (syncRun b source target).targetAfter
        = target ++ fetch_missing_records source
            (get_source_ids source \ get_target_ids target) := by
      rw [syncRun_of_nonempty_missing b source target hM]
      show (insert_records b target _).1 = _
      rw [insert_records_fst]
      exact insertAll_of_all_fresh _ target hndF hfresh
    have hidsapp : ids ((syncRun b source target).targetAfter)
        = ids target ++ ids (fetch_missing_records source
            (get_source_ids source \ get_target_ids target)) := by
      rw [hta]; simp [ids]
    have hdisj : List.Disjoint (ids target)
        (ids (fetch_missing_records source
          (get_source_ids source \ get_target_ids target))) := by
      intro a ha hb2
      have haF : a ∈ (ids (fetch_missing_records source
          (get_source_ids source \ get_target_ids target))).toFinset :=
        List.mem_toFinset.mpr hb2
      rw [htoF] at haF
      exact (Finset.mem_sdiff.mp haF).2 (List.mem_toFinset.mpr ha)
    have hnd : (ids (syncRun b source target).targetAfter).Nodup := by
      rw [hidsapp]; exact ht.append hndF hdisj
    have hto : (ids (syncRun b source target).targetAfter).toFinset
        = get_source_ids source := by
      rw [hidsapp, List.toFinset_append, htoF]
      exact Finset.union_sdiff_of_subset hsub
    have hcnt : (syncRun b source target).finalCount
        = (get_source_ids source).card := by
      rw [syncRun_finalCount_eq, hta, List.length_append, hlenF, htlen]
      have := Finset.card_sdiff_add_card_eq_card hsub
      omega
    refine ⟨hnd, hto, hcnt, ?_⟩
    rw [syncRun_converged_eq]
    simp only [decide_eq_true_eq]
    exact hcnt
  · have hMe := Finset.not_nonempty_iff_eq_empty.mp hM
    have hST : get_source_ids source = get_target_ids target :=
      Finset.Subset.antisymm (Finset.sdiff_eq_empty_iff_subset.mp hMe) hsub
    have hta : (syncRun b source target).targetAfter = target := by
      rw [syncRun_of_empty_missing b source target hMe]
    have hcnt : (syncRun b source target).finalCount
        = (get_source_ids source).card := by
      rw [syncRun_finalCount_eq, hta, htlen, hST]
    refine ⟨?_, ?_, hcnt, ?_⟩
    · rw [hta]; exact ht
    · rw [hta, hST]; rfl
    · rw [syncRun_converged_eq]
      simp only [decide_eq_true_eq]
      exact hcnt

/-! ### Claims -/

/-- C1: for every batch of fetched rows inserted into the target, a row whose
primary key is already present is a no-op: the `ON CONFLICT (trade_id) DO
NOTHING` insert cannot fail on a key collision (the embedded operation is
total), it creates no duplicate row (distinctness of target keys is
preserved), and the number of target rows carrying an already-present key is
unchanged. -/
theorem insert_conflict_is_noop (b : Nat) (target records : List Record)
    (k : Int) (hk : k ∈ ids target) (hnd : (ids target).Nodup) :
    (ids (insert_records b target records).1).count k = (ids target).count k ∧
    (ids (insert_records b target records).1).Nodup := by
  rw [insert_records_fst]
  exact ⟨count_ids_insertAll records target hk,
    nodup_ids_insertAll records target hnd⟩

/-- Witness for C1: inserting a batch containing the already-present key 1
leaves the row count for key 1 unchanged and keeps the target keys distinct. -/
theorem insert_conflict_is_noop_witness :
    ((1 : Int) ∈ ids [mkRecord 1, mkRecord 2] ∧
      (ids [mkRecord 1, mkRecord 2]).Nodup) ∧
    ((ids (insert_records 1000 [mkRecord 1, mkRecord 2]
        [mkRecord 1, mkRecord 3]).1).count 1
      = (ids [mkRecord 1, mkRecord 2]).count 1 ∧
    (ids (insert_records 1000 [mkRecord 1, mkRecord 2]
        [mkRecord 1, mkRecord 3]).1).Nodup) :=
  ⟨⟨by decide, by decide⟩,
    insert_conflict_is_noop 1000 [mkRecord 1, mkRecord 2]
      [mkRecord 1, mkRecord 3] 1 (by decide) (by decide)⟩

/-- C2 counterexample: when the first entity type's sync raises, `main` does
NOT attempt the second entity type (the claim says every subsequent entity
type's sync is still executed). -/
theorem main_failure_blocks_rest_cex :
    (mainRun SyncOutcome.raises (SyncOutcome.ok true)).fxOptionAttempted
      = false ∧
    (mainRun SyncOutcome.raises (SyncOutcome.ok true)).exitCode = 1 :=
  ⟨rfl, rfl⟩

/-- C2 amended: an unrecoverable (raised) error while syncing one entity type
aborts the whole run — the remaining entity types are not attempted and the
process exits with code 1; only a non-raising MISMATCH (a `False` return)
leaves the remaining entity types running while degrading the result. -/
theorem main_failure_aborts_run (c : Bool) (o : SyncOutcome) :
    (mainRun SyncOutcome.raises o).fxOptionAttempted = false ∧
    (mainRun SyncOutcome.raises o).exitCode = 1 ∧
    (mainRun (SyncOutcome.ok c) o).fxOptionAttempted = true := by
  refine ⟨rfl, rfl, ?_⟩
  cases o <;> rfl

/-- C3: the missing set is the pure set difference of the resolved id sets,
and whenever it is empty the fetch and the insert are skipped entirely (the
target state is untouched) while the verification recount still runs and
alone determines the returned convergence flag. -/
theorem sync_empty_missing_skips_but_verifies (b : Nat)
    (source target : List Record)
    (h : get_source_ids source \ get_target_ids target = ∅) :
    (syncRun b source target).missing
      = get_source_ids source \ get_target_ids target ∧
    (syncRun b source target).fetched = none ∧
    (syncRun b source target).insertedCount = none ∧
    (syncRun b source target).targetAfter = target ∧
    (syncRun b source target).finalCount = target.length ∧
    (syncRun b source target).converged
      = decide (target.length = (get_source_ids source).card) := by
  rw [syncRun_of_empty_missing b source target h]
  exact ⟨rfl, rfl, rfl, rfl, rfl, rfl⟩

/-- Witness for C3: source ids {1} are contained in target ids {1,2}, so the
missing set is empty, fetch and insert are skipped, and verification still
decides the result. -/
theorem sync_empty_missing_skips_but_verifies_witness :
    (get_source_ids [mkRecord 1] \ get_target_ids [mkRecord 1, mkRecord 2]
      = ∅) ∧
    ((syncRun 1000 [mkRecord 1] [mkRecord 1, mkRecord 2]).missing
      = get_source_ids [mkRecord 1] \ get_target_ids [mkRecord 1, mkRecord 2] ∧
    (syncRun 1000 [mkRecord 1] [mkRecord 1, mkRecord 2]).fetched = none ∧
    (syncRun 1000 [mkRecord 1] [mkRecord 1, mkRecord 2]).insertedCount
      = none ∧
    (syncRun 1000 [mkRecord 1] [mkRecord 1, mkRecord 2]).targetAfter
      = [mkRecord 1, mkRecord 2] ∧
    (syncRun 1000 [mkRecord 1] [mkRecord 1, mkRecord 2]).finalCount
      = [mkRecord 1, mkRecord 2].length ∧
    (syncRun 1000 [mkRecord 1] [mkRecord 1, mkRecord 2]).converged
      = decide ([mkRecord 1, mkRecord 2].length
          = (get_source_ids [mkRecord 1]).card)) :=
  ⟨by decide, sync_empty_missing_skips_but_verifies 1000 [mkRecord 1]
    [mkRecord 1, mkRecord 2] (by decide)⟩

/-- C4 counterexample: source ids {1,2}, target ids {1,2,3}, no source change
between two consecutive runs: the second run performs zero inserts (its
missing set is empty), yet NEITHER run reports CONVERGED — refuting the
claim's "a CONVERGED result on both runs". -/
theorem sync_idempotence_cex :
    (syncRun 1000 [mkRecord 1, mkRecord 2]
      [mkRecord 1, mkRecord 2, mkRecord 3]).converged = false ∧
    (syncRun 1000 [mkRecord 1, mkRecord 2]
      (syncRun 1000 [mkRecord 1, mkRecord 2]
        [mkRecord 1, mkRecord 2, mkRecord 3]).targetAfter).insertedCount
      = none ∧
    (syncRun 1000 [mkRecord 1, mkRecord 2]
      (syncRun 1000 [mkRecord 1, mkRecord 2]
        [mkRecord 1, mkRecord 2, mkRecord 3]).targetAfter).converged
      = false := by
  decide

/-- C4 amended: under the spec §3 invariant of correct operation — target
primary keys a subset of source primary keys, and primary keys distinct on
both sides — running the reconciliation twice with no source changes yields a
CONVERGED first run, an empty missing set, no insert call and an unchanged
target on the second run, and a CONVERGED second run. -/
theorem sync_idempotent_under_subset (b : Nat) (source target : List Record)
    (hb : 0 < b) (hs : (ids source).Nodup) (ht : (ids target).Nodup)
    (hsub : get_target_ids target ⊆ get_source_ids source) :
    (syncRun b source target).converged = true ∧
    (syncRun b source (syncRun b source target).targetAfter).missing = ∅ ∧
    (syncRun b source (syncRun b source target).targetAfter).insertedCount
      = none ∧
    (syncRun b source (syncRun b source target).targetAfter).targetAfter
      = (syncRun b source target).targetAfter ∧
    (syncRun b source (syncRun b source target).targetAfter).converged
      = true := by
  obtain ⟨hnd1, hto1, hcnt1, hcv1⟩ := syncRun_spec b source target hs ht hsub
  have hM2 : get_source_ids source
      \ get_target_ids (syncRun b source target).targetAfter = ∅ := by
    rw [show get_target_ids (syncRun b source target).targetAfter
        = (ids (syncRun b source target).targetAfter).toFinset from rfl,
      hto1, Finset.sdiff_self]
  have h2 := syncRun_of_empty_missing b source
    (syncRun b source target).targetAfter hM2
  refine ⟨hcv1, ?_, ?_, ?_, ?_⟩
  · rw [h2]; exact hM2
  · rw [h2]
  · rw [h2]
  · rw [h2]
    show decide ((syncRun b source target).targetAfter.length
      = (get_source_ids source).card) = true
    simp only [decide_eq_true_eq]
    exact hcnt1

/-- Witness for C4 (amended): batch size 2, source ids {1,2,3}, target ids
{1}; both runs converge and the second run is a no-op. -/
theorem sync_idempotent_under_subset_witness :
    (0 < 2 ∧ (ids [mkRecord 1, mkRecord 2, mkRecord 3]).Nodup ∧
      (ids [mkRecord 1]).Nodup ∧
      get_target_ids [mkRecord 1]
        ⊆ get_source_ids [mkRecord 1, mkRecord 2, mkRecord 3]) ∧
    ((syncRun 2 [mkRecord 1, mkRecord 2, mkRecord 3] [mkRecord 1]).converged
      = true ∧
    (syncRun 2 [mkRecord 1, mkRecord 2, mkRecord 3]
      (syncRun 2 [mkRecord 1, mkRecord 2, mkRecord 3]
        [mkRecord 1]).targetAfter).missing = ∅ ∧
    (syncRun 2 [mkRecord 1, mkRecord 2, mkRecord 3]
      (syncRun 2 [mkRecord 1, mkRecord 2, mkRecord 3]
        [mkRecord 1]).targetAfter).insertedCount = none ∧
    (syncRun 2 [mkRecord 1, mkRecord 2, mkRecord 3]
      (syncRun 2 [mkRecord 1, mkRecord 2, mkRecord 3]
        [mkRecord 1]).targetAfter).targetAfter
      = (syncRun 2 [mkRecord 1, mkRecord 2, mkRecord 3]
          [mkRecord 1]).targetAfter ∧
    (syncRun 2 [mkRecord 1, mkRecord 2, mkRecord 3]
      (syncRun 2 [mkRecord 1, mkRecord 2, mkRecord 3]
        [mkRecord 1]).targetAfter).converged = true) :=
  ⟨⟨by decide, by decide, by decide, by decide⟩,
    sync_idempotent_under_subset 2 [mkRecord 1, mkRecord 2, mkRecord 3]
      [mkRecord 1] (by decide) (by decide) (by decide) (by decide)⟩

/-- C5: convergence compares the raw post-commit target row count to the size
of the source id set, not set equality: with source ids {1,2} and target ids
{1,2,3}, the run performs zero inserts (missing is empty, fetch and insert are
skipped), the final count is 3, and the result is MISMATCH (`converged =
false`) even though every source id is already present in the target. -/
theorem convergence_counts_not_sets :
    (syncRun 1000 [mkRecord 1, mkRecord 2]
      [mkRecord 1, mkRecord 2, mkRecord 3]).missing = ∅ ∧
    (syncRun 1000 [mkRecord 1, mkRecord 2]
      [mkRecord 1, mkRecord 2, mkRecord 3]).fetched = none ∧
    (syncRun 1000 [mkRecord 1, mkRecord 2]
      [mkRecord 1, mkRecord 2, mkRecord 3]).insertedCount = none ∧
    (syncRun 1000 [mkRecord 1, mkRecord 2]
      [mkRecord 1, mkRecord 2, mkRecord 3]).finalCount = 3 ∧
    (syncRun 1000 [mkRecord 1, mkRecord 2]
      [mkRecord 1, mkRecord 2, mkRecord 3]).converged = false ∧
    get_source_ids [mkRecord 1, mkRecord 2]
      ⊆ get_target_ids [mkRecord 1, mkRecord 2, mkRecord 3] := by
  decide

/-- C6: batching is semantically transparent — for any positive batch sizes
the batched insert equals the spec's "one large insert", any two positive
batch sizes produce the same inserted state, and the whole sync run is
independent of the configured batch size. -/
theorem insert_chunking_transparent (b b2 : Nat)
    (source target records : List Record) (hb : 0 < b) (hb2 : 0 < b2) :
    (insert_records b target records).1 = insertAll target records ∧
    (insert_records b target records).1
      = (insert_records b2 target records).1 ∧
    syncRun b source target = syncRun b2 source target := by
  refine ⟨insert_records_fst b target records, ?_, ?_⟩
  · rw [insert_records_fst, insert_records_fst]
  · by_cases hM : (get_source_ids source \ get_target_ids target).Nonempty
    · rw [syncRun_of_nonempty_missing b source target hM,
        syncRun_of_nonempty_missing b2 source target hM]
      have h1 : (insert_records b target (fetch_missing_records source
            (get_source_ids source \ get_target_ids target))).1
          = (insert_records b2 target (fetch_missing_records source
            (get_source_ids source \ get_target_ids target))).1 := by
        rw [insert_records_fst, insert_records_fst]
      have h2 : (insert_records b target (fetch_missing_records source
            (get_source_ids source \ get_target_ids target))).2
          = (insert_records b2 target (fetch_missing_records source
            (get_source_ids source \ get_target_ids target))).2 := by
        by_cases hF : fetch_missing_records source
            (get_source_ids source \ get_target_ids target) = [] <;>
          simp [insert_records, hF]
      rw [h1, h2]
    · have hMe := Finset.not_nonempty_iff_eq_empty.mp hM
      rw [syncRun_of_empty_missing b source target hMe,
        syncRun_of_empty_missing b2 source target hMe]

/-- Witness for C6: batch sizes 2 and 5 on a three-row batch agree with the
one-large-insert semantics and with each other. -/
theorem insert_chunking_transparent_witness :
    (0 < 2 ∧ 0 < 5) ∧
    ((insert_records 2 [mkRecord 1]
        [mkRecord 2, mkRecord 3, mkRecord 4]).1
      = insertAll [mkRecord 1] [mkRecord 2, mkRecord 3, mkRecord 4] ∧
    (insert_records 2 [mkRecord 1]
        [mkRecord 2, mkRecord 3, mkRecord 4]).1
      = (insert_records 5 [mkRecord 1]
          [mkRecord 2, mkRecord 3, mkRecord 4]).1 ∧
    syncRun 2 [mkRecord 2, mkRecord 3] [mkRecord 1]
      = syncRun 5 [mkRecord 2, mkRecord 3] [mkRecord 1]) :=
  ⟨⟨by decide, by decide⟩,
    insert_chunking_transparent 2 5 [mkRecord 2, mkRecord 3] [mkRecord 1]
      [mkRecord 2, mkRecord 3, mkRecord 4] (by decide) (by decide)⟩

/-- C7 counterexample: the fetch-by-id query is NOT chunked — for a missing
set of 2101 ids the single submitted query carries 2101 parameters, exceeding
SQL Server's documented 2100-parameter limit, refuting the claim that no
single query exceeds a backend-imposed parameter-count limit. -/
theorem fetch_exceeds_param_limit_cex :
    ((fetchQueryParamCounts ((Finset.range 2101).image Int.ofNat)).any
      (fun q => decide (2100 < q))) = true := by
  have hinj : Function.Injective Int.ofNat := fun a b h => Int.ofNat.inj h
  have hcard : ((Finset.range 2101).image Int.ofNat).card = 2101 := by
    rw [Finset.card_image_of_injective _ hinj, Finset.card_range]
  have hne : (Finset.range 2101).image Int.ofNat ≠ ∅ := by
    intro h
    rw [h] at hcard
    simp at hcard
  rw [fetchQueryParamCounts, if_neg hne, hcard]
  decide

/-- C7 amended: the fetch-by-id step submits exactly one query whose
parameter count equals the size of the missing set — it is not chunked, so
the parameter list grows unboundedly with the missing set. -/
theorem fetch_single_unchunked_query (missing_ids : Finset Int)
    (h : missing_ids ≠ ∅) :
    fetchQueryParamCounts missing_ids = [missing_ids.card] := by
  simp [fetchQueryParamCounts, h]

/-- Witness for C7 (amended): a one-element missing set yields a single query
with one parameter. -/
theorem fetch_single_unchunked_query_witness :
    (({5} : Finset Int) ≠ ∅) ∧
    fetchQueryParamCounts {5} = [({5} : Finset Int).card] :=
  ⟨by decide, fetch_single_unchunked_query {5} (by decide)⟩

/-- C8: the connection pair is NOT released on every exit path — when opening
the target (PostgreSQL) connection raises while the source (SQL Server)
connection is already open, the `finally` block is never reached and the
source connection is left open; the `finally` does close both connections
whenever the body is reached, even on a body failure. -/
theorem sync_source_connection_leak :
    (syncConnections false true false).sqlOpened = true ∧
    (syncConnections false true false).sqlClosed = false ∧
    (syncConnections false true false).raised = true ∧
    (syncConnections false false true).sqlClosed = true ∧
    (syncConnections false false true).pgClosed = true := by
  decide

/-- C9: the process exit code is 0 exactly when both entity types end in
CONVERGED (each sync returns `True`); any MISMATCH (`False`) or raised
failure makes it 1. -/
theorem main_exit_code_iff_converged (fx fxOption : SyncOutcome) :
    ((mainRun fx fxOption).exitCode = 0 ↔
      fx = SyncOutcome.ok true ∧ fxOption = SyncOutcome.ok true) ∧
    (mainRun fx fxOption).exitCode ≤ 1 := by
  cases fx with
  | raises => simp [mainRun]
  | ok c1 =>
    cases fxOption with
    | raises => simp [mainRun]
    | ok c2 => cases c1 <;> cases c2 <;> simp [mainRun]

/-- C10: the insert step reports `len(records)` — the number of rows
presented to it — not the number of rows actually added: when every presented
row's key is already in the target, the target is unchanged while the
reported inserted count is still the full batch size. -/
theorem inserted_count_is_presented_count (b : Nat)
    (target records : List Record) (hne : records ≠ [])
    (hall : ∀ r ∈ records, r.tradeId ∈ ids target) :
    (insert_records b target records).2 = records.length ∧
    (insert_records b target records).1 = target := by
  refine ⟨insert_records_snd b target hne, ?_⟩
  rw [insert_records_fst]
  exact insertAll_of_all_mem records target hall

/-- Witness for C10: presenting two already-present rows reports an inserted
count of 2 while adding no row at all. -/
theorem inserted_count_is_presented_count_witness :
    (([mkRecord 1, mkRecord 2] : List Record) ≠ [] ∧
      (∀ r ∈ ([mkRecord 1, mkRecord 2] : List Record),
        r.tradeId ∈ ids [mkRecord 1, mkRecord 2, mkRecord 3])) ∧
    ((insert_records 1000 [mkRecord 1, mkRecord 2, mkRecord 3]
        [mkRecord 1, mkRecord 2]).2 = [mkRecord 1, mkRecord 2].length ∧
    (insert_records 1000 [mkRecord 1, mkRecord 2, mkRecord 3]
        [mkRecord 1, mkRecord 2]).1 = [mkRecord 1, mkRecord 2, mkRecord 3]) :=
  ⟨⟨by decide, by decide⟩,
    inserted_count_is_presented_count 1000 [mkRecord 1, mkRecord 2, mkRecord 3]
      [mkRecord 1, mkRecord 2] (by decide) (by decide)⟩
